import Mathlib

/-!
Formalisation of the Sovereign Trust Layer of the Soverin-Schema repository:
the quorum-consensus engine (RitualController, src/unnamed/part_003) and the
entropy-oracle pipeline (SovereignEntropyNodeController,
src/controllers/sovereignEntropyNodeController.js).

Modelling conventions:
- JavaScript numbers that only ever hold counts are Nat; numbers that may be
  fractional or negative are Rat; the retry policy's bounds are Int because the
  source compares them with a counter that starts at 0 and the behaviour for
  non-positive bounds is claim-relevant.
- The external chain adapter, schema validator and audit sink are collaborators:
  their behaviour enters as explicit parameters, and every call the controller
  makes to a collaborator is recorded in an effect trace.
- Timestamps are an abstract Nat supplied by the caller; fresh UUIDs are
  explicit String arguments.
- Map state is an association list; JavaScript Map.get is List.lookup and
  in-place mutation of a looked-up object is replacement of the first binding.
-/

namespace SoverinSchema

/-- Replace the first element satisfying p by its image under f, leaving the
rest of the list unchanged: in-place mutation of the object returned by a
JavaScript Array.prototype.find. -/
def updateFirst (p : α → Bool) (f : α → α) : List α → List α
  | [] => []
  | x :: xs => if p x then f x :: xs else x :: updateFirst p f xs

deriving instance DecidableEq for Except

/-! Quorum consensus engine: RitualController in src/unnamed/part_003. -/

/-- Signal record as built by RitualController.initiateSignal. -/
structure Signal where
  id : String
  initiator : String
  sigType : String
  payload : String
  timestamp : Nat
  status : String
  verificationCount : Nat
deriving DecidableEq

/-- One action of a Ritual, stamped at execution time. -/
structure RAction where
  atype : String
  target : String
  executedAt : Nat
deriving DecidableEq

/-- Ritual record as built by RitualController.executeRitual. -/
structure Ritual where
  id : String
  initiator : String
  actions : List RAction
  status : String
  timestamp : Nat
deriving DecidableEq

/-- Consensus record as built by RitualController.quorumConsensusCheck. -/
structure ConsensusRecord where
  signalId : String
  reached : Bool
  timestamp : Nat
  verifications : Nat
deriving DecidableEq

/-- The ritualData aggregate held by a RitualController instance. -/
structure RitualData where
  rituals : List Ritual
  signals : List Signal
  consensusRecords : List ConsensusRecord
deriving DecidableEq

/-- Errors the ritual controller throws. -/
inductive RErr where
  | notFound
deriving DecidableEq

/-- Audit events are pairs of event name and actor, sent to the external
compliance sink. -/
abbrev AuditEvent := String × String

/-- RitualController.initiateSignal: push a fresh pending signal with
verificationCount 0. The UUID and timestamp are explicit arguments. -/
def initiateSignal (st : RitualData) (freshId : String) (now : Nat)
    (initiator sigType payload : String) :
    Signal × RitualData × List AuditEvent :=
  let s : Signal :=
    { id := freshId, initiator := initiator, sigType := sigType,
      payload := payload, timestamp := now, status := "pending",
      verificationCount := 0 }
  (s, { st with signals := st.signals ++ [s] }, [("signal_initiated", initiator)])

/-- The in-place mutation done by RitualController.verifySignal on the found
signal: increment verificationCount and overwrite status from isValid. -/
def bumpSignal (isValid : Bool) (s : Signal) : Signal :=
  { s with verificationCount := s.verificationCount + 1,
           status := if isValid then "verified" else "rejected" }

/-- RitualController.verifySignal: find the signal, throw when absent,
otherwise bump its count, overwrite its status and log an audit event.
The verifier argument is only used as the audit actor. -/
def verifySignal (st : RitualData) (signalId verifier : String) (isValid : Bool) :
    Except RErr Signal × RitualData × List AuditEvent :=
  match st.signals.find? (fun s => s.id == signalId) with
  | none => (.error .notFound, st, [])
  | some s =>
    (.ok (bumpSignal isValid s),
     { st with signals :=
         updateFirst (fun s => s.id == signalId) (bumpSignal isValid) st.signals },
     [("signal_verified", verifier)])

/-- RitualController.executeRitual: stamp each action, append a completed
ritual, log an audit event. The source defaults a missing ritualId to a fresh
UUID; here the caller always passes the id to use. -/
def executeRitual (st : RitualData) (ritualId initiator : String)
    (actions : List (String × String)) (now : Nat) :
    Ritual × RitualData × List AuditEvent :=
  let rit : Ritual :=
    { id := ritualId, initiator := initiator,
      actions := actions.map (fun a => { atype := a.1, target := a.2, executedAt := now }),
      status := "completed", timestamp := now }
  (rit, { st with rituals := st.rituals ++ [rit] }, [("ritual_executed", initiator)])

/-- The consensus record quorumConsensusCheck builds from the found signal. -/
def consensusOf (signalId : String) (required : Nat) (now : Nat) (s : Signal) :
    ConsensusRecord :=
  { signalId := signalId, reached := decide (required ≤ s.verificationCount),
    timestamp := now, verifications := s.verificationCount }

/-- RitualController.quorumConsensusCheck: find the signal, throw when absent,
append a consensus record, and when the threshold is met execute a ritual with
the single consensus_approved action attributed to the signal's initiator.
freshId stands for the crypto.randomUUID passed as the ritual id. -/
def quorumConsensusCheck (st : RitualData) (signalId : String) (required : Nat)
    (now : Nat) (freshId : String) :
    Except RErr ConsensusRecord × RitualData × List AuditEvent :=
  match st.signals.find? (fun s => s.id == signalId) with
  | none => (.error .notFound, st, [])
  | some s =>
    let c := consensusOf signalId required now s
    let st1 := { st with consensusRecords := st.consensusRecords ++ [c] }
    if c.reached then
      let r := executeRitual st1 freshId s.initiator [("consensus_approved", signalId)] now
      (.ok c, r.2.1, r.2.2)
    else
      (.ok c, st1, [])

/-- Iterated quorumConsensusCheck with fixed arguments, threading the state. -/
def iterQCC (signalId : String) (required : Nat) (now : Nat) (freshId : String) :
    Nat → RitualData → RitualData
  | 0, st => st
  | n + 1, st =>
      iterQCC signalId required now freshId n
        (quorumConsensusCheck st signalId required now freshId).2.1

/-! Entropy oracle pipeline: SovereignEntropyNodeController in
src/controllers/sovereignEntropyNodeController.js. -/

/-- retryPolicy field of the entropy agent. The bounds are Int because the
source compares them against a counter starting at 0 and the behaviour for
non-positive maxAttempts is observable. -/
structure RetryPolicy where
  maxAttempts : Int
  backoffMs : Int
deriving DecidableEq

/-- postProcess field of the entropy agent; ptype is the JSON key named type. -/
structure PostProcess where
  ptype : String
  callback : String
deriving DecidableEq

/-- entropy_agent field of a node. -/
structure EntropyAgent where
  contracts : List Nat
  method : String
  format : String
  cacheTTL : Nat
  retryPolicy : RetryPolicy
  postProcess : PostProcess
deriving DecidableEq

/-- governance field of a node. -/
structure Governance where
  proposalThreshold : Rat
  votingContract : String
deriving DecidableEq

/-- transactionHooks field of a node; only the hooks this controller
dispatches are modelled. -/
structure TransactionHooks where
  onEntropyFetch : Option String
  onVote : Option String
deriving DecidableEq

/-- A registered entropy node as stored in the controller's Map. ntype is the
JSON key named type, fixed to the entropy-node tag at creation. -/
structure Node where
  node_id : String
  ntype : String
  creation_date : Nat
  username : String
  wallet_address : String
  soulboundId : String
  reputation_score : Rat
  entropy_agent : EntropyAgent
  roles : List String
  governance : Governance
  transactionHooks : TransactionHooks
  karmaWage : Rat
  votes_cast : Nat
  staking_balance : Rat
deriving DecidableEq

/-- The descriptor passed to createNode: node_id and reputation_score may be
absent (JavaScript undefined). -/
structure Descriptor where
  node_id : Option String
  username : String
  wallet_address : String
  soulboundId : String
  reputation_score : Option Rat
  entropy_agent : EntropyAgent
  roles : List String
  governance : Governance
  transactionHooks : TransactionHooks
  karmaWage : Rat
  votes_cast : Nat
  staking_balance : Rat
deriving DecidableEq

/-- One call the controller makes to an external collaborator, recorded in
order in an effect trace. cacheRead never occurs in any operation; it is in
the type so that its absence is expressible. -/
inductive FxEffect where
  | callContract (contractRef : Nat) (method fmt : String)
  | sleepBackoff (ms : Int)
  | postProcessRun (ptype callback : String) (input : Option Nat)
  | cacheWrite (nodeId : String) (value : Option Nat) (ttl : Nat)
  | cacheRead (nodeId : String)
  | hookRun (hook : String)
  | karmaCredit (wallet : String) (wage : Rat)
  | reputationCredit (wallet : String) (delta : Rat)
  | submitVote (contract wallet proposalId : String) (vote : Bool)
  | updateStaking (wallet : String) (newBalance : Rat)
  | registerChain (nodeId : String)
  | audit (event wallet : String)
deriving DecidableEq

/-- Behaviour of the external chain adapter during one operation: gw k is the
outcome of the k-th contract call (none meaning the call throws), ppResult is
the value executePostProcess returns, hookFails tells whether executeHook
throws. -/
structure ChainEnv where
  gw : Nat → Option Nat
  ppResult : Option Nat → Nat
  hookFails : Bool

/-- Errors fetchEntropy throws. entropyFetch carries the attempt count from
the failure message. -/
inductive FErr where
  | notFound
  | entropyFetch (attempts : Nat)
  | hookError
deriving DecidableEq

/-- The retry while-loop of fetchEntropy, started at a given attempts counter
(0 at the call site). Each contract call is recorded; a failed attempt
increments the counter and either throws when the bound is reached or sleeps
for backoffMs and retries. When the loop guard fails at entry the entropy
variable keeps its undefined value, modelled as ok none. -/
def retryLoop (gw : Nat → Option Nat) (cRef : Nat) (method fmt : String)
    (backoffMs maxAttempts : Int) (attempts : Nat) :
    Except Nat (Option Nat) × List FxEffect :=
  if _h : (attempts : Int) < maxAttempts then
    match gw attempts with
    | some v => (.ok (some v), [.callContract cRef method fmt])
    | none =>
      if maxAttempts ≤ (attempts + 1 : Int) then
        (.error (attempts + 1), [.callContract cRef method fmt])
      else
        let r := retryLoop gw cRef method fmt backoffMs maxAttempts (attempts + 1)
        (r.1, .callContract cRef method fmt :: .sleepBackoff backoffMs :: r.2)
  else (.ok none, [])
termination_by (maxAttempts - attempts).toNat
decreasing_by omega

/-- Karma wage, fixed reputation increment and audit event emitted at the end
of a successful fetchEntropy. -/
def fetchCredit (node : Node) : List FxEffect :=
  [.karmaCredit node.wallet_address node.karmaWage,
   .reputationCredit node.wallet_address (1/2),
   .audit "entropy_fetched" node.wallet_address]

/-- The processedEntropy variable of fetchEntropy: the raw value when the
post-process type is none, otherwise the value the adapter's
executePostProcess returns. -/
def processedOf (env : ChainEnv) (node : Node) (entropy : Option Nat) : Option Nat :=
  if node.entropy_agent.postProcess.ptype = "none" then entropy
  else some (env.ppResult entropy)

/-- The effect the post-process step emits: nothing when the type is none,
otherwise one executePostProcess call receiving the raw value. -/
def ppTrace (node : Node) (entropy : Option Nat) : List FxEffect :=
  if node.entropy_agent.postProcess.ptype = "none" then []
  else [.postProcessRun node.entropy_agent.postProcess.ptype
        node.entropy_agent.postProcess.callback entropy]

/-- The tail of fetchEntropy after the retry loop returned: post-process when
the type is not none, write the cache, dispatch the hook when configured (its
failure propagates), then credit karma and reputation and log the audit
event. -/
def afterFetch (env : ChainEnv) (node : Node) (nodeId : String)
    (entropy : Option Nat) (tr : List FxEffect) :
    Except FErr (Option Nat) × List FxEffect :=
  let processed := processedOf env node entropy
  let tr1 := tr ++ ppTrace node entropy
    ++ [.cacheWrite nodeId processed node.entropy_agent.cacheTTL]
  match node.transactionHooks.onEntropyFetch with
  | some hk =>
    if env.hookFails then (.error .hookError, tr1 ++ [.hookRun hk])
    else (.ok processed, tr1 ++ [.hookRun hk] ++ fetchCredit node)
  | none => (.ok processed, tr1 ++ fetchCredit node)

/-- SovereignEntropyNodeController.fetchEntropy: look the node up, run the
retry loop against contracts at contractIndex, then post-process, cache, hook,
credit and audit. -/
def fetchEntropy (env : ChainEnv) (nodes : List (String × Node)) (nodeId : String)
    (contractIndex : Nat := 0) : Except FErr (Option Nat) × List FxEffect :=
  match nodes.lookup nodeId with
  | none => (.error .notFound, [])
  | some node =>
    let ea := node.entropy_agent
    let r := retryLoop env.gw (ea.contracts.getD contractIndex 0) ea.method ea.format
        ea.retryPolicy.backoffMs ea.retryPolicy.maxAttempts 0
    match r.1 with
    | .error a => (.error (.entropyFetch a), r.2)
    | .ok entropy => afterFetch env node nodeId entropy r.2

/-- Errors castVote throws. -/
inductive VErr where
  | notFound
  | notVoter
  | insufficientReputation
  | hookError
deriving DecidableEq

/-- Both castVote authorization failures: missing voter role and reputation
below the governance threshold. -/
def isAuthErr : VErr → Bool
  | .notVoter => true
  | .insufficientReputation => true
  | _ => false

/-- Map.set on an existing key: replace the first binding. -/
def setNode (nodes : List (String × Node)) (k : String) (v : Node) :
    List (String × Node) :=
  updateFirst (fun p => p.1 == k) (fun p => (p.1, v)) nodes

/-- Map.set in general: replace when the key is present, append otherwise. -/
def mapSet (nodes : List (String × Node)) (k : String) (v : Node) :
    List (String × Node) :=
  if (nodes.lookup k).isSome then setNode nodes k v else nodes ++ [(k, v)]

/-- Karma wage, fixed reputation increment and audit event emitted at the end
of a successful castVote. -/
def voteCredit (node : Node) : List FxEffect :=
  [.karmaCredit node.wallet_address node.karmaWage,
   .reputationCredit node.wallet_address (3/10),
   .audit "vote_cast" node.wallet_address]

/-- SovereignEntropyNodeController.castVote: look the node up, require the
voter role and the reputation floor, submit the vote through the gateway
(modelled as succeeding — the gateway is an external collaborator), increment
votes_cast, dispatch the onVote hook (its failure propagates), credit and
audit. -/
def castVote (hookFails : Bool) (nodes : List (String × Node))
    (nodeId proposalId : String) (vote : Bool) :
    Except VErr Unit × List (String × Node) × List FxEffect :=
  match nodes.lookup nodeId with
  | none => (.error .notFound, nodes, [])
  | some node =>
    if node.roles.contains "voter" = false then (.error .notVoter, nodes, [])
    else if node.reputation_score < node.governance.proposalThreshold then
      (.error .insufficientReputation, nodes, [])
    else
      let node2 := { node with votes_cast := node.votes_cast + 1 }
      let nodes2 := setNode nodes nodeId node2
      let tr0 := [FxEffect.submitVote node.governance.votingContract
        node.wallet_address proposalId vote]
      match node.transactionHooks.onVote with
      | some hk =>
        if hookFails then (.error .hookError, nodes2, tr0 ++ [.hookRun hk])
        else (.ok (), nodes2, tr0 ++ [.hookRun hk] ++ voteCredit node)
      | none => (.ok (), nodes2, tr0 ++ voteCredit node)

/-- Errors createNode throws. -/
inductive CErr where
  | validationFailed
  | invalidSoulbound
deriving DecidableEq

/-- JavaScript v || d on a possibly-absent number: 0 is falsy. -/
def jsOrDefaultRat (v : Option Rat) (d : Rat) : Rat :=
  match v with
  | none => d
  | some r => if r = 0 then d else r

/-- JavaScript v || d on a possibly-absent string: the empty string is
falsy. -/
def jsOrDefaultStr (v : Option String) (d : String) : String :=
  match v with
  | none => d
  | some s => if s = "" then d else s

/-- The node object createNode builds by spreading the descriptor and
overriding node_id, type, creation_date and reputation_score. -/
def nodeOfDescriptor (data : Descriptor) (nodeId : String) (now : Nat) : Node :=
  { node_id := nodeId, ntype := "entropy-node", creation_date := now,
    username := data.username, wallet_address := data.wallet_address,
    soulboundId := data.soulboundId,
    reputation_score := jsOrDefaultRat data.reputation_score 50,
    entropy_agent := data.entropy_agent, roles := data.roles,
    governance := data.governance, transactionHooks := data.transactionHooks,
    karmaWage := data.karmaWage, votes_cast := data.votes_cast,
    staking_balance := data.staking_balance }

/-- SovereignEntropyNodeController.createNode: validate the descriptor against
the schema (a black-box predicate supplied as validD, per the spec's scope),
build the node, verify the soulbound identity through the external verifier,
store the node, register it on chain and audit. uuid is the explicit
uuidv4. -/
def createNode (validD : Descriptor → Bool) (verifySoulbound : String → String → Bool)
    (uuid : String) (now : Nat) (nodes : List (String × Node)) (data : Descriptor) :
    Except CErr String × List (String × Node) × List FxEffect :=
  if validD data = false then (.error .validationFailed, nodes, [])
  else
    let nodeId := jsOrDefaultStr data.node_id uuid
    let node := nodeOfDescriptor data nodeId now
    if verifySoulbound node.wallet_address node.soulboundId = false then
      (.error .invalidSoulbound, nodes, [])
    else
      (.ok nodeId, mapSet nodes nodeId node,
       [.registerChain nodeId, .audit "node_created" node.wallet_address])

/-- Errors updateStakingBalance throws. -/
inductive SErr where
  | notFound
  | insufficientBalance
deriving DecidableEq

/-- SovereignEntropyNodeController.updateStakingBalance: look the node up,
reject a withdrawal that would drive the balance negative, otherwise add the
amount, push the new balance to the chain adapter and audit. -/
def updateStakingBalance (nodes : List (String × Node)) (nodeId : String)
    (amount : Rat) : Except SErr Rat × List (String × Node) × List FxEffect :=
  match nodes.lookup nodeId with
  | none => (.error .notFound, nodes, [])
  | some node =>
    if amount < 0 ∧ node.staking_balance + amount < 0 then
      (.error .insufficientBalance, nodes, [])
    else
      let node2 := { node with staking_balance := node.staking_balance + amount }
      (.ok node2.staking_balance, setNode nodes nodeId node2,
       [.updateStaking node.wallet_address node2.staking_balance,
        .audit "staking_updated" node.wallet_address])

/-! Effect classifiers used to count collaborator calls in a trace. -/

/-- Recognise a contract-gateway call effect. -/
def isCallContract : FxEffect → Bool
  | .callContract _ _ _ => true
  | _ => false

/-- Recognise a cache-write effect. -/
def isCacheWrite : FxEffect → Bool
  | .cacheWrite _ _ _ => true
  | _ => false

/-- Recognise a cache-read effect. -/
def isCacheRead : FxEffect → Bool
  | .cacheRead _ => true
  | _ => false

/-- Recognise a karma-credit effect. -/
def isKarmaCredit : FxEffect → Bool
  | .karmaCredit _ _ => true
  | _ => false

/-- Recognise a reputation-credit effect. -/
def isReputationCredit : FxEffect → Bool
  | .reputationCredit _ _ => true
  | _ => false

/-- Recognise an audit-sink effect. -/
def isAudit : FxEffect → Bool
  | .audit _ _ => true
  | _ => false

/-- Recognise a post-process execution effect. -/
def isPostProcessRun : FxEffect → Bool
  | .postProcessRun _ _ _ => true
  | _ => false

/-! Concrete sample data instantiating the hypotheses of the claims. -/

/-- Sample entropy agent: three attempts, passthrough post-processing. -/
def sampleAgent : EntropyAgent :=
  { contracts := [7], method := "getRandom", format := "hex", cacheTTL := 60,
    retryPolicy := { maxAttempts := 3, backoffMs := 10 },
    postProcess := { ptype := "none", callback := "" } }

/-- Sample node with the voter role and an onEntropyFetch hook. -/
def sampleNode : Node :=
  { node_id := "n1", ntype := "entropy-node", creation_date := 0, username := "u",
    wallet_address := "0xabc", soulboundId := "sb1", reputation_score := 50,
    entropy_agent := sampleAgent, roles := ["voter"],
    governance := { proposalThreshold := 10, votingContract := "0xgov" },
    transactionHooks := { onEntropyFetch := some "hookA", onVote := none },
    karmaWage := 5, votes_cast := 0, staking_balance := 100 }

/-- Sample node map holding only sampleNode. -/
def sampleNodes : List (String × Node) := [("n1", sampleNode)]

/-- Sample node whose retry policy allows zero attempts and that has no
hooks. -/
def zeroRetryNode : Node :=
  { sampleNode with
    entropy_agent :=
      { sampleAgent with retryPolicy := { maxAttempts := 0, backoffMs := 10 } },
    transactionHooks := { onEntropyFetch := none, onVote := none } }

/-- Node map holding only zeroRetryNode under the key n0. -/
def zeroRetryNodes : List (String × Node) := [("n0", zeroRetryNode)]

/-- Sample node with the voter role but reputation below the governance
threshold. -/
def lowRepNode : Node :=
  { sampleNode with node_id := "n2", reputation_score := 5 }

/-- Node map holding only lowRepNode under the key n2. -/
def lowRepNodes : List (String × Node) := [("n2", lowRepNode)]

/-- Adapter behaviour where every contract call succeeds and hooks succeed. -/
def okEnv : ChainEnv :=
  { gw := fun _ => some 42, ppResult := fun _ => 0, hookFails := false }

/-- Adapter behaviour where every contract call succeeds and every hook
dispatch throws. -/
def hookFailEnv : ChainEnv :=
  { gw := fun _ => some 42, ppResult := fun _ => 0, hookFails := true }

/-- Adapter behaviour where every contract call fails. -/
def downEnv : ChainEnv :=
  { gw := fun _ => none, ppResult := fun _ => 0, hookFails := false }

/-- Descriptor carrying an explicit nonzero reputation_score. -/
def sampleDescriptor : Descriptor :=
  { node_id := some "n9", username := "u9", wallet_address := "0xdef",
    soulboundId := "sb9", reputation_score := some 80,
    entropy_agent := sampleAgent, roles := [],
    governance := { proposalThreshold := 10, votingContract := "0xgov" },
    transactionHooks := { onEntropyFetch := none, onVote := none },
    karmaWage := 1, votes_cast := 0, staking_balance := 0 }

/-- Descriptor with no reputation_score supplied. -/
def defaultDescriptor : Descriptor :=
  { sampleDescriptor with node_id := some "n8", reputation_score := none }

/-- Schema validator accepting every descriptor (the schema is a black-box
collaborator). -/
def allValid : Descriptor → Bool := fun _ => true

/-- Soulbound verifier accepting every pair. -/
def allSoulboundOk : String → String → Bool := fun _ _ => true

/-- Sample signal used to instantiate the hypotheses of the consensus claims. -/
def sampleSignal : Signal :=
  { id := "s1", initiator := "agentA", sigType := "oracle-update", payload := "p",
    timestamp := 0, status := "verified", verificationCount := 2 }

/-- Sample ritual state holding only sampleSignal. -/
def sampleState : RitualData :=
  { rituals := [], signals := [sampleSignal], consensusRecords := [] }

/-! Helper lemmas about updateFirst. -/

theorem updateFirst_find? {p : α → Bool} {f : α → α} {l : List α} {a : α}
    (h : l.find? p = some a) (hf : p (f a) = true) :
    (updateFirst p f l).find? p = some (f a) := by
  induction l with
  | nil => simp at h
  | cons x xs ih =>
    by_cases hx : p x
    · rw [List.find?_cons_of_pos _ hx] at h
      cases h
      simp [updateFirst, hx, List.find?_cons_of_pos _ hf]
    · have hx' : p x = false := by simpa using hx
      rw [List.find?_cons_of_neg _ hx] at h
      rw [updateFirst, if_neg (by simp [hx']), List.find?_cons_of_neg _ hx]
      exact ih h

theorem mem_updateFirst_of_neg {p : α → Bool} {f : α → α} {l : List α} {a : α}
    (ha : a ∈ l) (hpa : p a = false) : a ∈ updateFirst p f l := by
  induction l with
  | nil => simp at ha
  | cons x xs ih =>
    by_cases hx : p x
    · rcases List.mem_cons.mp ha with rfl | hmem
      · simp [hpa] at hx
      · simp [updateFirst, hx, hmem]
    · have hx' : p x = false := by simpa using hx
      rcases List.mem_cons.mp ha with rfl | hmem
      · simp [updateFirst, hx']
      · simp [updateFirst, hx', ih hmem]

/-- Looking up the replaced key after setNode yields the new value. -/
theorem lookup_setNode (k : String) (v : Node) :
    ∀ nodes : List (String × Node), (nodes.lookup k).isSome →
      (setNode nodes k v).lookup k = some v := by
  intro nodes
  induction nodes with
  | nil => intro h; simp [List.lookup] at h
  | cons p l ih =>
    obtain ⟨a, b⟩ := p
    intro h
    by_cases hk : a = k
    · subst hk
      simp [setNode, updateFirst, List.lookup]
    · have h1 : (a == k) = false := by simp [hk]
      have h2 : (k == a) = false := by simp [Ne.symm hk]
      have h' : (l.lookup k).isSome := by
        simpa [List.lookup, h2] using h
      have hih := ih h'
      simp only [setNode] at hih
      simp [setNode, updateFirst, h1, List.lookup, h2, hih]

/-- A key absent from the first list is looked up in the second. -/
theorem lookup_append_of_none {l1 l2 : List (String × Node)} {k : String}
    (h : l1.lookup k = none) : (l1 ++ l2).lookup k = l2.lookup k := by
  induction l1 with
  | nil => simp
  | cons p l ih =>
    obtain ⟨a, b⟩ := p
    by_cases hk : (k == a) = true
    · simp [List.lookup, hk] at h
    · have h2 : (k == a) = false := by simpa using hk
      simp only [List.cons_append, List.lookup, h2] at h ⊢
      exact ih h

/-- Looking up the written key after mapSet yields the new value. -/
theorem lookup_mapSet (nodes : List (String × Node)) (k : String) (v : Node) :
    (mapSet nodes k v).lookup k = some v := by
  unfold mapSet
  by_cases h : (nodes.lookup k).isSome
  · rw [if_pos h]
    exact lookup_setNode k v nodes h
  · rw [if_neg h]
    have hn : nodes.lookup k = none := by
      cases hh : nodes.lookup k with
      | none => rfl
      | some w => simp [hh] at h
    rw [lookup_append_of_none hn]
    simp [List.lookup]

/-- Count is zero when the predicate fails on every element. -/
theorem countP_eq_zero_of_forall {α : Type} {tr : List α} {p : α → Bool}
    (h : ∀ e ∈ tr, p e = false) : tr.countP p = 0 := by
  rw [List.countP_eq_zero]
  intro e he
  simp [h e he]

/-- The retry loop does nothing when its guard fails at entry. -/
theorem retryLoop_guard_false (gw : Nat → Option Nat) (cRef : Nat)
    (method fmt : String) (backoffMs maxAttempts : Int) (attempts : Nat)
    (h : ¬ ((attempts : Int) < maxAttempts)) :
    retryLoop gw cRef method fmt backoffMs maxAttempts attempts = (.ok none, []) := by
  rw [retryLoop]
  simp [h]

/-- Every effect the retry loop emits is a contract call against the fixed
contract reference or a backoff sleep. -/
theorem retryLoop_shape (gw : Nat → Option Nat) (cRef : Nat) (method fmt : String)
    (backoffMs maxAttempts : Int) :
    ∀ (d attempts : Nat), (maxAttempts - attempts).toNat ≤ d →
      ∀ e ∈ (retryLoop gw cRef method fmt backoffMs maxAttempts attempts).2,
        e = FxEffect.callContract cRef method fmt
          ∨ e = FxEffect.sleepBackoff backoffMs := by
  intro d
  induction d with
  | zero =>
    intro attempts hle e he
    have hguard : ¬ ((attempts : Int) < maxAttempts) := by omega
    rw [retryLoop_guard_false gw cRef method fmt backoffMs maxAttempts attempts hguard] at he
    simp at he
  | succ d ih =>
    intro attempts hle e he
    by_cases hguard : (attempts : Int) < maxAttempts
    · rw [retryLoop] at he
      rw [dif_pos hguard] at he
      cases hgw : gw attempts with
      | some v =>
        rw [hgw] at he
        simp at he
        exact Or.inl he
      | none =>
        rw [hgw] at he
        by_cases hbound : maxAttempts ≤ (attempts + 1 : Int)
        · rw [if_pos hbound] at he
          simp at he
          exact Or.inl he
        · rw [if_neg hbound] at he
          simp only [List.mem_cons] at he
          rcases he with rfl | rfl | he
          · exact Or.inl rfl
          · exact Or.inr rfl
          · exact ih (attempts + 1) (by omega) e he
    · rw [retryLoop_guard_false gw cRef method fmt backoffMs maxAttempts attempts hguard] at he
      simp at he

/-- The retry loop performs at most maxAttempts minus attempts contract
calls. -/
theorem retryLoop_count (gw : Nat → Option Nat) (cRef : Nat) (method fmt : String)
    (backoffMs maxAttempts : Int) :
    ∀ (d attempts : Nat), (maxAttempts - attempts).toNat ≤ d →
      (retryLoop gw cRef method fmt backoffMs maxAttempts attempts).2.countP
          isCallContract
        ≤ (maxAttempts - attempts).toNat := by
  intro d
  induction d with
  | zero =>
    intro attempts hle
    have hguard : ¬ ((attempts : Int) < maxAttempts) := by omega
    rw [retryLoop_guard_false gw cRef method fmt backoffMs maxAttempts attempts hguard]
    simp
  | succ d ih =>
    intro attempts hle
    by_cases hguard : (attempts : Int) < maxAttempts
    · rw [retryLoop, dif_pos hguard]
      cases hgw : gw attempts with
      | some v =>
        simp [List.countP_cons, isCallContract]
        omega
      | none =>
        by_cases hbound : maxAttempts ≤ (attempts + 1 : Int)
        · rw [if_pos hbound]
          simp [List.countP_cons, isCallContract]
          omega
        · rw [if_neg hbound]
          have h2 := ih (attempts + 1) (by omega)
          simp only [List.countP_cons, isCallContract, if_pos, if_neg]
          simp [isCallContract]
          omega
    · rw [retryLoop_guard_false gw cRef method fmt backoffMs maxAttempts attempts hguard]
      simp

/-- When every attempt inside the bound fails, the retry loop throws carrying
the attempt count, which equals maxAttempts. -/
theorem retryLoop_all_fail (gw : Nat → Option Nat) (cRef : Nat) (method fmt : String)
    (backoffMs maxAttempts : Int) :
    ∀ (d attempts : Nat), (maxAttempts - attempts).toNat ≤ d →
      (attempts : Int) < maxAttempts →
      (∀ k : Nat, attempts ≤ k → (k : Int) < maxAttempts → gw k = none) →
      (retryLoop gw cRef method fmt backoffMs maxAttempts attempts).1
        = .error maxAttempts.toNat := by
  intro d
  induction d with
  | zero =>
    intro attempts hle hguard _
    omega
  | succ d ih =>
    intro attempts hle hguard hall
    rw [retryLoop, dif_pos hguard]
    rw [hall attempts Nat.le.refl hguard]
    by_cases hbound : maxAttempts ≤ (attempts + 1 : Int)
    · rw [if_pos hbound]
      have : attempts + 1 = maxAttempts.toNat := by omega
      rw [this]
    · rw [if_neg hbound]
      exact ih (attempts + 1) (by omega) (by omega)
        (fun k hk1 hk2 => hall k (by omega) hk2)

/-- When the first successful attempt happens inside the bound, the retry loop
returns its value. -/
theorem retryLoop_first_success (gw : Nat → Option Nat) (cRef : Nat)
    (method fmt : String) (backoffMs maxAttempts : Int) :
    ∀ (d attempts : Nat), (maxAttempts - attempts).toNat ≤ d →
      ∀ (k v : Nat), attempts ≤ k → (k : Int) < maxAttempts → gw k = some v →
      (∀ j : Nat, attempts ≤ j → j < k → gw j = none) →
      (retryLoop gw cRef method fmt backoffMs maxAttempts attempts).1
        = .ok (some v) := by
  intro d
  induction d with
  | zero =>
    intro attempts hle k v hak hk _ _
    omega
  | succ d ih =>
    intro attempts hle k v hak hk hgwk hfail
    have hguard : (attempts : Int) < maxAttempts := by omega
    rw [retryLoop, dif_pos hguard]
    by_cases heq : attempts = k
    · subst heq
      rw [hgwk]
    · have hlt : attempts < k := lt_of_le_of_ne hak heq
      rw [hfail attempts Nat.le.refl hlt]
      have hbound : ¬ maxAttempts ≤ (attempts + 1 : Int) := by omega
      rw [if_neg hbound]
      exact ih (attempts + 1) (by omega) k v (by omega) hk hgwk
        (fun j hj1 hj2 => hfail j (by omega) hj2)

/-- The retry loop's whole trace has no cache, credit or audit effects. -/
theorem loopTrace_counts (gw : Nat → Option Nat) (cRef : Nat) (method fmt : String)
    (backoffMs maxAttempts : Int) :
    (retryLoop gw cRef method fmt backoffMs maxAttempts 0).2.countP isCacheWrite = 0 ∧
    (retryLoop gw cRef method fmt backoffMs maxAttempts 0).2.countP isCacheRead = 0 ∧
    (retryLoop gw cRef method fmt backoffMs maxAttempts 0).2.countP isKarmaCredit = 0 ∧
    (retryLoop gw cRef method fmt backoffMs maxAttempts 0).2.countP isReputationCredit = 0 ∧
    (retryLoop gw cRef method fmt backoffMs maxAttempts 0).2.countP isAudit = 0 := by
  have hs := retryLoop_shape gw cRef method fmt backoffMs maxAttempts
    maxAttempts.toNat 0 (by omega)
  refine ⟨?_, ?_, ?_, ?_, ?_⟩ <;>
    exact countP_eq_zero_of_forall fun e he => by
      rcases hs e he with rfl | rfl <;> rfl

/-- afterFetch appends no contract call or cache read and exactly one cache
write to the incoming trace. -/
theorem afterFetch_countP_extra (env : ChainEnv) (node : Node) (nodeId : String)
    (entropy : Option Nat) (tr : List FxEffect) :
    (afterFetch env node nodeId entropy tr).2.countP isCallContract
      = tr.countP isCallContract ∧
    (afterFetch env node nodeId entropy tr).2.countP isCacheWrite
      = tr.countP isCacheWrite + 1 ∧
    (afterFetch env node nodeId entropy tr).2.countP isCacheRead
      = tr.countP isCacheRead := by
  by_cases hpt : node.entropy_agent.postProcess.ptype = "none" <;>
    cases hhk : node.transactionHooks.onEntropyFetch <;>
      by_cases hf : env.hookFails <;>
        refine ⟨?_, ?_, ?_⟩ <;>
          simp [afterFetch, ppTrace, fetchCredit, hpt, hhk, hf,
            List.countP_append, List.countP_cons, isCallContract, isCacheWrite,
            isCacheRead]

/-- When afterFetch returns successfully, the value is the processed entropy
and the trace extends the incoming one with one cache write, one karma credit,
one reputation credit and one audit event. -/
theorem afterFetch_ok (env : ChainEnv) (node : Node) (nodeId : String)
    (entropy : Option Nat) (tr : List FxEffect) (w : Option Nat)
    (hw : (afterFetch env node nodeId entropy tr).1 = .ok w) :
    w = processedOf env node entropy ∧
    (afterFetch env node nodeId entropy tr).2.countP isKarmaCredit
      = tr.countP isKarmaCredit + 1 ∧
    (afterFetch env node nodeId entropy tr).2.countP isReputationCredit
      = tr.countP isReputationCredit + 1 ∧
    (afterFetch env node nodeId entropy tr).2.countP isAudit
      = tr.countP isAudit + 1 ∧
    FxEffect.cacheWrite nodeId (processedOf env node entropy)
        node.entropy_agent.cacheTTL ∈ (afterFetch env node nodeId entropy tr).2 ∧
    FxEffect.karmaCredit node.wallet_address node.karmaWage
      ∈ (afterFetch env node nodeId entropy tr).2 := by
  cases hhk : node.transactionHooks.onEntropyFetch with
  | none =>
    have hw2 : w = processedOf env node entropy := by
      simp only [afterFetch, hhk] at hw
      simpa using hw.symm
    refine ⟨hw2, ?_, ?_, ?_, ?_, ?_⟩ <;>
      by_cases hpt : node.entropy_agent.postProcess.ptype = "none" <;>
        simp [afterFetch, ppTrace, fetchCredit, hhk, hpt,
          List.countP_append, List.countP_cons,
          isKarmaCredit, isReputationCredit, isAudit]
  | some hk =>
    by_cases hf : env.hookFails
    · exfalso
      simp [afterFetch, hhk, hf] at hw
    · have hw2 : w = processedOf env node entropy := by
        simp only [afterFetch, hhk, if_neg hf] at hw
        simpa using hw.symm
      refine ⟨hw2, ?_, ?_, ?_, ?_, ?_⟩ <;>
        by_cases hpt : node.entropy_agent.postProcess.ptype = "none" <;>
          simp [afterFetch, ppTrace, fetchCredit, hhk, hf, hpt,
            List.countP_append, List.countP_cons,
            isKarmaCredit, isReputationCredit, isAudit]

/-- When a hook is configured and its dispatch throws, afterFetch fails with
the hook error after writing the cache, and neither credits nor audits. -/
theorem afterFetch_hookfail (env : ChainEnv) (node : Node) (nodeId : String)
    (entropy : Option Nat) (tr : List FxEffect) (hk : String)
    (hhk : node.transactionHooks.onEntropyFetch = some hk)
    (hf : env.hookFails = true) :
    (afterFetch env node nodeId entropy tr).1 = .error .hookError ∧
    (afterFetch env node nodeId entropy tr).2.countP isKarmaCredit
      = tr.countP isKarmaCredit ∧
    (afterFetch env node nodeId entropy tr).2.countP isReputationCredit
      = tr.countP isReputationCredit ∧
    (afterFetch env node nodeId entropy tr).2.countP isAudit
      = tr.countP isAudit ∧
    FxEffect.hookRun hk ∈ (afterFetch env node nodeId entropy tr).2 := by
  refine ⟨?_, ?_, ?_, ?_, ?_⟩ <;>
    by_cases hpt : node.entropy_agent.postProcess.ptype = "none" <;>
      simp [afterFetch, hhk, hf, ppTrace, hpt, fetchCredit,
        List.countP_append, List.countP_cons, isKarmaCredit,
        isReputationCredit, isAudit]

/-- When hook dispatch does not throw, afterFetch succeeds with the processed
entropy. -/
theorem afterFetch_ok_of_not_hookfail (env : ChainEnv) (node : Node)
    (nodeId : String) (entropy : Option Nat) (tr : List FxEffect)
    (hf : env.hookFails = false) :
    (afterFetch env node nodeId entropy tr).1
      = .ok (processedOf env node entropy) := by
  cases hhk : node.transactionHooks.onEntropyFetch <;>
    simp [afterFetch, hhk, hf]

/-- Every effect in a ppTrace is the single post-process run on the raw
value. -/
theorem ppTrace_mem (node : Node) (entropy : Option Nat) :
    ∀ e ∈ ppTrace node entropy,
      e = FxEffect.postProcessRun node.entropy_agent.postProcess.ptype
        node.entropy_agent.postProcess.callback entropy := by
  intro e he
  unfold ppTrace at he
  split at he
  · simp at he
  · simpa using he

/-- Decomposition of an afterFetch trace: every effect is from the incoming
trace, the post-process run, the cache write, a hook dispatch, or the credit
tail. -/
theorem afterFetch_trace_decomp (env : ChainEnv) (node : Node) (nodeId : String)
    (entropy : Option Nat) (tr : List FxEffect) :
    ∀ e ∈ (afterFetch env node nodeId entropy tr).2,
      e ∈ tr ∨
      e = FxEffect.postProcessRun node.entropy_agent.postProcess.ptype
        node.entropy_agent.postProcess.callback entropy ∨
      e = FxEffect.cacheWrite nodeId (processedOf env node entropy)
        node.entropy_agent.cacheTTL ∨
      (∃ hk, e = FxEffect.hookRun hk) ∨
      e ∈ fetchCredit node := by
  intro e he
  cases hhk : node.transactionHooks.onEntropyFetch with
  | none =>
    simp only [afterFetch, hhk, List.mem_append] at he
    rcases he with ((he | he) | he) | he
    · exact Or.inl he
    · exact Or.inr (Or.inl (ppTrace_mem node entropy e he))
    · simp only [List.mem_singleton] at he
      exact Or.inr (Or.inr (Or.inl he))
    · exact Or.inr (Or.inr (Or.inr (Or.inr he)))
  | some hk =>
    by_cases hf : env.hookFails
    · simp only [afterFetch, hhk, if_pos hf, List.mem_append] at he
      rcases he with ((he | he) | he) | he
      · exact Or.inl he
      · exact Or.inr (Or.inl (ppTrace_mem node entropy e he))
      · simp only [List.mem_singleton] at he
        exact Or.inr (Or.inr (Or.inl he))
      · simp only [List.mem_singleton] at he
        exact Or.inr (Or.inr (Or.inr (Or.inl ⟨hk, he⟩)))
    · simp only [afterFetch, hhk, if_neg hf, List.mem_append] at he
      rcases he with (((he | he) | he) | he) | he
      · exact Or.inl he
      · exact Or.inr (Or.inl (ppTrace_mem node entropy e he))
      · simp only [List.mem_singleton] at he
        exact Or.inr (Or.inr (Or.inl he))
      · simp only [List.mem_singleton] at he
        exact Or.inr (Or.inr (Or.inr (Or.inl ⟨hk, he⟩)))
      · exact Or.inr (Or.inr (Or.inr (Or.inr he)))

/-- Every contract-call effect in an afterFetch trace was already in the
incoming trace. -/
theorem afterFetch_call_mem (env : ChainEnv) (node : Node) (nodeId : String)
    (entropy : Option Nat) (tr : List FxEffect) :
    ∀ e ∈ (afterFetch env node nodeId entropy tr).2, isCallContract e = true →
      e ∈ tr := by
  intro e he hc
  rcases afterFetch_trace_decomp env node nodeId entropy tr e he with
    h | h | h | ⟨hk, h⟩ | h
  · exact h
  · subst h; simp [isCallContract] at hc
  · subst h; simp [isCallContract] at hc
  · subst h; simp [isCallContract] at hc
  · simp only [fetchCredit, List.mem_cons, List.mem_singleton, List.not_mem_nil,
      or_false] at h
    rcases h with rfl | rfl | rfl <;> simp [isCallContract] at hc

/-- Every post-process effect in an afterFetch trace was already in the
incoming trace or is the single run on the raw entropy. -/
theorem afterFetch_ppRun_mem (env : ChainEnv) (node : Node) (nodeId : String)
    (entropy : Option Nat) (tr : List FxEffect) :
    ∀ e ∈ (afterFetch env node nodeId entropy tr).2, isPostProcessRun e = true →
      e ∈ tr ∨ e = FxEffect.postProcessRun node.entropy_agent.postProcess.ptype
        node.entropy_agent.postProcess.callback entropy := by
  intro e he hc
  rcases afterFetch_trace_decomp env node nodeId entropy tr e he with
    h | h | h | ⟨hk, h⟩ | h
  · exact Or.inl h
  · exact Or.inr h
  · subst h; simp [isPostProcessRun] at hc
  · subst h; simp [isPostProcessRun] at hc
  · simp only [fetchCredit, List.mem_cons, List.mem_singleton, List.not_mem_nil,
      or_false] at h
    rcases h with rfl | rfl | rfl <;> simp [isPostProcessRun] at hc

/-- One step of quorumConsensusCheck on a found signal whose count meets the
threshold: signals untouched, one ritual and one consensus record appended. -/
theorem qcc_reached_step (st : RitualData) (signalId : String) (required now : Nat)
    (freshId : String) (s : Signal)
    (hfind : st.signals.find? (fun t => t.id == signalId) = some s)
    (hreach : required ≤ s.verificationCount) :
    (quorumConsensusCheck st signalId required now freshId).2.1.signals = st.signals ∧
    (quorumConsensusCheck st signalId required now freshId).2.1.rituals.length
      = st.rituals.length + 1 ∧
    (quorumConsensusCheck st signalId required now freshId).2.1.consensusRecords.length
      = st.consensusRecords.length + 1 := by
  simp [quorumConsensusCheck, hfind, consensusOf, hreach, executeRitual]

/-- Claim C2: for an existing signal, quorumConsensusCheck returns a consensus
record with reached equal to verificationCount at call time meeting the
threshold, appends that record to the consensus log, and executes a ritual with
the single consensus_approved action attributed to the signal's initiator if
and only if reached holds; an unknown signalId fails with the not-found error
and leaves the state unchanged. -/
theorem claim_C2_quorumConsensusCheck (st : RitualData) (signalId : String)
    (required now : Nat) (freshId : String) :
    (∀ s, st.signals.find? (fun t => t.id == signalId) = some s →
      (quorumConsensusCheck st signalId required now freshId).1
        = .ok (consensusOf signalId required now s) ∧
      ((consensusOf signalId required now s).reached = true
        ↔ required ≤ s.verificationCount) ∧
      (consensusOf signalId required now s).verifications = s.verificationCount ∧
      (quorumConsensusCheck st signalId required now freshId).2.1.consensusRecords
        = st.consensusRecords ++ [consensusOf signalId required now s] ∧
      (quorumConsensusCheck st signalId required now freshId).2.1.signals = st.signals ∧
      (required ≤ s.verificationCount →
        (quorumConsensusCheck st signalId required now freshId).2.1.rituals
          = st.rituals ++
            [{ id := freshId, initiator := s.initiator,
               actions := [{ atype := "consensus_approved", target := signalId,
                             executedAt := now }],
               status := "completed", timestamp := now }]) ∧
      (¬ required ≤ s.verificationCount →
        (quorumConsensusCheck st signalId required now freshId).2.1.rituals
          = st.rituals)) ∧
    (st.signals.find? (fun t => t.id == signalId) = none →
      (quorumConsensusCheck st signalId required now freshId).1 = .error .notFound ∧
      (quorumConsensusCheck st signalId required now freshId).2.1 = st) := by
  constructor
  · intro s hs
    by_cases hr : required ≤ s.verificationCount
    · refine ⟨?_, ?_, ?_, ?_, ?_, ?_, ?_⟩ <;>
        simp [quorumConsensusCheck, hs, consensusOf, executeRitual, hr]
    · refine ⟨?_, ?_, ?_, ?_, ?_, ?_, ?_⟩ <;>
        simp [quorumConsensusCheck, hs, consensusOf, executeRitual, hr]
  · intro h
    simp [quorumConsensusCheck, h]

/-- Witness for claim C2 at a concrete state where the threshold is met. -/
theorem claim_C2_witness :
    (quorumConsensusCheck sampleState "s1" 2 5 "r1").1
      = .ok (consensusOf "s1" 2 5 sampleSignal) ∧
    (quorumConsensusCheck sampleState "s1" 2 5 "r1").2.1.rituals
      = sampleState.rituals ++
        [{ id := "r1", initiator := sampleSignal.initiator,
           actions := [{ atype := "consensus_approved", target := "s1",
                         executedAt := 5 }],
           status := "completed", timestamp := 5 }] := by
  have h := (claim_C2_quorumConsensusCheck sampleState "s1" 2 5 "r1").1
    sampleSignal (by decide)
  exact ⟨h.1, h.2.2.2.2.2.1 (by decide)⟩

/-- Claim C4: no already-executed guard — as long as the signal's count meets
the threshold, n successive quorumConsensusCheck calls append n rituals and
n consensus records. -/
theorem claim_C4_quorum_not_idempotent (signalId : String) (required now : Nat)
    (freshId : String) (s : Signal) (hreach : required ≤ s.verificationCount)
    (n : Nat) :
    ∀ st : RitualData, st.signals.find? (fun t => t.id == signalId) = some s →
      (iterQCC signalId required now freshId n st).rituals.length
        = st.rituals.length + n ∧
      (iterQCC signalId required now freshId n st).consensusRecords.length
        = st.consensusRecords.length + n := by
  induction n with
  | zero => intro st _; simp [iterQCC]
  | succ n ih =>
    intro st hfind
    obtain ⟨hsig, hrit, hrec⟩ := qcc_reached_step st signalId required now freshId s hfind hreach
    obtain ⟨ih1, ih2⟩ := ih _ (by rw [hsig]; exact hfind)
    constructor
    · simp only [iterQCC]
      rw [ih1, hrit]
      omega
    · simp only [iterQCC]
      rw [ih2, hrec]
      omega

/-- Witness for claim C4: three repeated checks at a met threshold create three
rituals. -/
theorem claim_C4_witness :
    (iterQCC "s1" 2 0 "r1" 3 sampleState).rituals.length
      = sampleState.rituals.length + 3 :=
  (claim_C4_quorum_not_idempotent "s1" 2 0 "r1" sampleSignal (by decide) 3
    sampleState (by decide)).1

/-- Claim C5: verifySignal on an existing signal increments its count by one
and overwrites its status from the boolean, regardless of previous status and
independent of the verifier identity; other signals, rituals and consensus
records are untouched; an unknown signalId fails with the not-found error and
changes nothing. -/
theorem claim_C5_verifySignal (st : RitualData) (signalId verifier : String)
    (isValid : Bool) :
    (∀ s, st.signals.find? (fun t => t.id == signalId) = some s →
      (verifySignal st signalId verifier isValid).1 = .ok (bumpSignal isValid s) ∧
      (bumpSignal isValid s).verificationCount = s.verificationCount + 1 ∧
      (bumpSignal isValid s).status = (if isValid then "verified" else "rejected") ∧
      (verifySignal st signalId verifier isValid).2.1.signals.find?
          (fun t => t.id == signalId) = some (bumpSignal isValid s) ∧
      (verifySignal st signalId verifier isValid).2.1.rituals = st.rituals ∧
      (verifySignal st signalId verifier isValid).2.1.consensusRecords
        = st.consensusRecords ∧
      (∀ t ∈ st.signals, (t.id == signalId) = false →
        t ∈ (verifySignal st signalId verifier isValid).2.1.signals) ∧
      (∀ verifier2,
        (verifySignal st signalId verifier2 isValid).1
          = (verifySignal st signalId verifier isValid).1 ∧
        (verifySignal st signalId verifier2 isValid).2.1
          = (verifySignal st signalId verifier isValid).2.1)) ∧
    (st.signals.find? (fun t => t.id == signalId) = none →
      (verifySignal st signalId verifier isValid).1 = .error .notFound ∧
      (verifySignal st signalId verifier isValid).2.1 = st) := by
  constructor
  · intro s hs
    have hid : ((bumpSignal isValid s).id == signalId) = true := by
      have := List.find?_some hs
      simpa [bumpSignal] using this
    refine ⟨by simp [verifySignal, hs], by simp [bumpSignal], by simp [bumpSignal],
      ?_, by simp [verifySignal, hs], by simp [verifySignal, hs], ?_, ?_⟩
    · simp only [verifySignal, hs]
      exact updateFirst_find? hs hid
    · intro t ht hneq
      simp only [verifySignal, hs]
      exact mem_updateFirst_of_neg ht hneq
    · intro verifier2
      simp [verifySignal, hs]
  · intro h
    simp [verifySignal, h]

/-- Witness for claim C5 at a concrete state. -/
theorem claim_C5_witness :
    (verifySignal sampleState "s1" "v1" true).1 = .ok (bumpSignal true sampleSignal) ∧
    (bumpSignal true sampleSignal).verificationCount
      = sampleSignal.verificationCount + 1 := by
  have h := (claim_C5_verifySignal sampleState "s1" "v1" true).1 sampleSignal (by decide)
  exact ⟨h.1, h.2.1⟩

/-- Claim C10: updateStakingBalance preserves non-negativity — for a node with
a non-negative balance the call fails with the insufficient-balance error and
changes nothing exactly when the amount is negative and would drive the
balance negative, and otherwise succeeds with the new balance equal to the old
plus the amount, which is non-negative. -/
theorem claim_C10_staking_nonneg (nodes : List (String × Node)) (nodeId : String)
    (amount : Rat) (node : Node)
    (hn : nodes.lookup nodeId = some node) (hpos : 0 ≤ node.staking_balance) :
    ((amount < 0 ∧ node.staking_balance + amount < 0) →
      (updateStakingBalance nodes nodeId amount).1 = .error .insufficientBalance ∧
      (updateStakingBalance nodes nodeId amount).2.1 = nodes) ∧
    (¬ (amount < 0 ∧ node.staking_balance + amount < 0) →
      (updateStakingBalance nodes nodeId amount).1
        = .ok (node.staking_balance + amount) ∧
      (updateStakingBalance nodes nodeId amount).2.1.lookup nodeId
        = some { node with staking_balance := node.staking_balance + amount } ∧
      0 ≤ node.staking_balance + amount) := by
  constructor
  · intro h
    constructor <;> simp [updateStakingBalance, hn, h]
  · intro h
    refine ⟨?_, ?_, ?_⟩
    · simp [updateStakingBalance, hn, h]
    · simp only [updateStakingBalance, hn, if_neg h]
      exact lookup_setNode _ _ _ (by simp [hn])
    · by_cases ha : amount < 0
      · have h2 : ¬ node.staking_balance + amount < 0 := fun hb => h ⟨ha, hb⟩
        linarith [not_lt.mp h2]
      · have h2 : 0 ≤ amount := not_lt.mp ha
        linarith

/-- Witness for claim C10: a withdrawal within the balance succeeds and keeps
the balance non-negative. -/
theorem claim_C10_witness :
    (updateStakingBalance sampleNodes "n1" (-30)).1
      = .ok (sampleNode.staking_balance + (-30)) ∧
    (0 : Rat) ≤ sampleNode.staking_balance + (-30) := by
  have h := (claim_C10_staking_nonneg sampleNodes "n1" (-30) sampleNode
    (by decide) (by norm_num [sampleNode])).2 (by norm_num [sampleNode])
  exact ⟨h.1, h.2.2⟩

/-- Claim C6: castVote fails with an authorization error and leaves the node
map unchanged whenever the node lacks the voter role or its reputation is
below the governance threshold; when both hold, the vote is submitted to the
gateway and votes_cast increases by one. -/
theorem claim_C6_castVote_authorization (hookFails : Bool)
    (nodes : List (String × Node)) (nodeId proposalId : String) (vote : Bool)
    (node : Node) (hn : nodes.lookup nodeId = some node) :
    ((node.roles.contains "voter" = false ∨
        node.reputation_score < node.governance.proposalThreshold) →
      (∃ err, (castVote hookFails nodes nodeId proposalId vote).1 = .error err ∧
        isAuthErr err = true) ∧
      (castVote hookFails nodes nodeId proposalId vote).2.1 = nodes) ∧
    (node.roles.contains "voter" = true →
      ¬ node.reputation_score < node.governance.proposalThreshold →
      FxEffect.submitVote node.governance.votingContract node.wallet_address
          proposalId vote ∈ (castVote hookFails nodes nodeId proposalId vote).2.2 ∧
      (castVote hookFails nodes nodeId proposalId vote).2.1.lookup nodeId
        = some { node with votes_cast := node.votes_cast + 1 }) := by
  constructor
  · intro h
    by_cases hv : node.roles.contains "voter" = false
    · have hred : castVote hookFails nodes nodeId proposalId vote
          = (.error .notVoter, nodes, []) := by
        simp only [castVote, hn]
        rw [if_pos hv]
      rw [hred]
      exact ⟨⟨.notVoter, rfl, rfl⟩, rfl⟩
    · have hrep : node.reputation_score < node.governance.proposalThreshold := by
        rcases h with h | h
        · exact absurd h hv
        · exact h
      have hred : castVote hookFails nodes nodeId proposalId vote
          = (.error .insufficientReputation, nodes, []) := by
        simp only [castVote, hn]
        rw [if_neg hv, if_pos hrep]
      rw [hred]
      exact ⟨⟨.insufficientReputation, rfl, rfl⟩, rfl⟩
  · intro hv hr
    have hv2 : ¬ (node.roles.contains "voter" = false) := by rw [hv]; simp
    have hsome : (nodes.lookup nodeId).isSome := by simp [hn]
    have hlook := lookup_setNode nodeId
      { node with votes_cast := node.votes_cast + 1 } nodes hsome
    constructor
    · simp only [castVote, hn]
      rw [if_neg hv2, if_neg hr]
      cases hhk : node.transactionHooks.onVote with
      | none => simp
      | some hk => cases hookFails <;> simp
    · simp only [castVote, hn]
      rw [if_neg hv2, if_neg hr]
      cases hhk : node.transactionHooks.onVote with
      | none => exact hlook
      | some hk => cases hookFails <;> simpa using hlook

/-- Witness for claim C6: a node with the voter role but reputation below the
threshold is rejected with an authorization error and its state is
unchanged. -/
theorem claim_C6_witness :
    (∃ err, (castVote false lowRepNodes "n2" "p1" true).1 = .error err ∧
      isAuthErr err = true) ∧
    (castVote false lowRepNodes "n2" "p1" true).2.1 = lowRepNodes :=
  (claim_C6_castVote_authorization false lowRepNodes "n2" "p1" true lowRepNode
    (by decide)).1 (Or.inr (by decide))

/-- Counterexample to claim C7: a schema-accepted descriptor carrying an
explicit reputation_score of 80 whose soulbound proof verifies produces a
node whose reputation_score is 80, not 50. -/
theorem claim_C7_counterexample :
    (createNode allValid allSoulboundOk "u1" 0 [] sampleDescriptor).1 = .ok "n9" ∧
    ((createNode allValid allSoulboundOk "u1" 0 [] sampleDescriptor).2.1.lookup
        "n9").map Node.reputation_score = some 80 ∧
    ¬ ((createNode allValid allSoulboundOk "u1" 0 [] sampleDescriptor).2.1.lookup
        "n9").map Node.reputation_score = some 50 := by
  refine ⟨by decide, by decide, by decide⟩

/-- Claim C7 as amended: a node created by createNode has reputation_score 50
exactly when the descriptor omits reputation_score or supplies the falsy value
0; a nonzero supplied score is kept. -/
theorem claim_C7_amended_reputation_default (validD : Descriptor → Bool)
    (verifySB : String → String → Bool) (uuid : String) (now : Nat)
    (nodes : List (String × Node)) (data : Descriptor) (nodeId : String)
    (hok : (createNode validD verifySB uuid now nodes data).1 = .ok nodeId) :
    ((createNode validD verifySB uuid now nodes data).2.1.lookup nodeId).map
        Node.reputation_score = some (jsOrDefaultRat data.reputation_score 50) ∧
    ((data.reputation_score = none ∨ data.reputation_score = some 0) →
      jsOrDefaultRat data.reputation_score 50 = 50) ∧
    (∀ r : Rat, data.reputation_score = some r → r ≠ 0 →
      jsOrDefaultRat data.reputation_score 50 = r) := by
  refine ⟨?_, ?_, ?_⟩
  · by_cases hv : validD data = false
    · simp [createNode, hv] at hok
    · by_cases hs : verifySB data.wallet_address data.soulboundId = false
      · simp [createNode, nodeOfDescriptor, hv, hs] at hok
      · have hid : jsOrDefaultStr data.node_id uuid = nodeId := by
          simpa [createNode, nodeOfDescriptor, hv, hs] using hok
        simp only [createNode, nodeOfDescriptor, hv, hs, if_neg,
          not_false_eq_true, hid]
        simp [lookup_mapSet, nodeOfDescriptor]
  · intro h
    rcases h with h | h <;> simp [jsOrDefaultRat, h]
  · intro r hr hne
    simp [jsOrDefaultRat, hr, hne]

/-- Witness for the amended claim C7: a descriptor without reputation_score
yields a node with reputation_score 50. -/
theorem claim_C7_amended_witness :
    ((createNode allValid allSoulboundOk "u1" 0 [] defaultDescriptor).2.1.lookup
        "n8").map Node.reputation_score
      = some (jsOrDefaultRat defaultDescriptor.reputation_score 50) ∧
    jsOrDefaultRat defaultDescriptor.reputation_score 50 = 50 := by
  have h := claim_C7_amended_reputation_default allValid allSoulboundOk "u1" 0 []
    defaultDescriptor "n8" (by decide)
  exact ⟨h.1, h.2.1 (Or.inl rfl)⟩

/-- Claim C3: with maxAttempts at least one, fetchEntropy performs at most
maxAttempts contract calls, fails with the entropy-fetch error carrying the
attempt count when every attempt inside the bound fails (whatever later
attempts would return), never calls any contract other than the one at
contractIndex, and succeeds with the first successful attempt's value when one
exists inside the bound. -/
theorem claim_C3_retry_bounds (env : ChainEnv) (nodes : List (String × Node))
    (nodeId : String) (cIdx : Nat) (node : Node)
    (hn : nodes.lookup nodeId = some node)
    (hN : 1 ≤ node.entropy_agent.retryPolicy.maxAttempts) :
    ((fetchEntropy env nodes nodeId cIdx).2.countP isCallContract
        ≤ node.entropy_agent.retryPolicy.maxAttempts.toNat) ∧
    ((∀ k : Nat, (k : Int) < node.entropy_agent.retryPolicy.maxAttempts →
        env.gw k = none) →
      (fetchEntropy env nodes nodeId cIdx).1
        = .error (.entropyFetch node.entropy_agent.retryPolicy.maxAttempts.toNat)) ∧
    (∀ e ∈ (fetchEntropy env nodes nodeId cIdx).2, isCallContract e = true →
      e = .callContract (node.entropy_agent.contracts.getD cIdx 0)
        node.entropy_agent.method node.entropy_agent.format) ∧
    (∀ k v : Nat, (k : Int) < node.entropy_agent.retryPolicy.maxAttempts →
      env.gw k = some v → (∀ j : Nat, j < k → env.gw j = none) →
      env.hookFails = false →
      (∃ w, (fetchEntropy env nodes nodeId cIdx).1 = .ok w) ∧
      (node.entropy_agent.postProcess.ptype = "none" →
        (fetchEntropy env nodes nodeId cIdx).1 = .ok (some v))) := by
  have hshape := retryLoop_shape env.gw (node.entropy_agent.contracts.getD cIdx 0)
    node.entropy_agent.method node.entropy_agent.format
    node.entropy_agent.retryPolicy.backoffMs
    node.entropy_agent.retryPolicy.maxAttempts
    node.entropy_agent.retryPolicy.maxAttempts.toNat 0 (by omega)
  have hcount := retryLoop_count env.gw (node.entropy_agent.contracts.getD cIdx 0)
    node.entropy_agent.method node.entropy_agent.format
    node.entropy_agent.retryPolicy.backoffMs
    node.entropy_agent.retryPolicy.maxAttempts
    node.entropy_agent.retryPolicy.maxAttempts.toNat 0 (by omega)
  have hcount2 : (retryLoop env.gw (node.entropy_agent.contracts.getD cIdx 0)
      node.entropy_agent.method node.entropy_agent.format
      node.entropy_agent.retryPolicy.backoffMs
      node.entropy_agent.retryPolicy.maxAttempts 0).2.countP isCallContract
      ≤ node.entropy_agent.retryPolicy.maxAttempts.toNat := by
    simpa using hcount
  refine ⟨?_, ?_, ?_, ?_⟩
  · simp only [fetchEntropy, hn]
    cases hr : (retryLoop env.gw (node.entropy_agent.contracts.getD cIdx 0)
        node.entropy_agent.method node.entropy_agent.format
        node.entropy_agent.retryPolicy.backoffMs
        node.entropy_agent.retryPolicy.maxAttempts 0).1 with
    | error a => exact hcount2
    | ok entropy =>
      rw [(afterFetch_countP_extra env node nodeId entropy _).1]
      exact hcount2
  · intro hall
    have hloop := retryLoop_all_fail env.gw
      (node.entropy_agent.contracts.getD cIdx 0)
      node.entropy_agent.method node.entropy_agent.format
      node.entropy_agent.retryPolicy.backoffMs
      node.entropy_agent.retryPolicy.maxAttempts
      node.entropy_agent.retryPolicy.maxAttempts.toNat 0 (by omega) (by omega)
      (fun k _ hk => hall k hk)
    simp only [fetchEntropy, hn]
    rw [hloop]
  · intro e he hc
    simp only [fetchEntropy, hn] at he
    rcases hr : (retryLoop env.gw (node.entropy_agent.contracts.getD cIdx 0)
        node.entropy_agent.method node.entropy_agent.format
        node.entropy_agent.retryPolicy.backoffMs
        node.entropy_agent.retryPolicy.maxAttempts 0).1 with a | entropy
    · rw [hr] at he
      rcases hshape e he with rfl | rfl
      · rfl
      · simp [isCallContract] at hc
    · rw [hr] at he
      have hmem := afterFetch_call_mem env node nodeId entropy _ e he hc
      rcases hshape e hmem with rfl | rfl
      · rfl
      · simp [isCallContract] at hc
  · intro k v hk hgw hfirst hf
    have hloop := retryLoop_first_success env.gw
      (node.entropy_agent.contracts.getD cIdx 0)
      node.entropy_agent.method node.entropy_agent.format
      node.entropy_agent.retryPolicy.backoffMs
      node.entropy_agent.retryPolicy.maxAttempts
      node.entropy_agent.retryPolicy.maxAttempts.toNat 0 (by omega) k v
      (Nat.zero_le k) hk hgw (fun j _ hj => hfirst j hj)
    constructor
    · refine ⟨processedOf env node (some v), ?_⟩
      simp only [fetchEntropy, hn]
      rw [hloop]
      exact afterFetch_ok_of_not_hookfail env node nodeId (some v) _ hf
    · intro hpt
      simp only [fetchEntropy, hn]
      rw [hloop]
      rw [afterFetch_ok_of_not_hookfail env node nodeId (some v) _ hf]
      simp [processedOf, hpt]

/-- Witness for claim C3: an always-failing gateway exhausts three attempts
and yields the entropy-fetch error, with at most three contract calls. -/
theorem claim_C3_witness :
    (fetchEntropy downEnv sampleNodes "n1" 0).1
      = .error (.entropyFetch sampleNode.entropy_agent.retryPolicy.maxAttempts.toNat) ∧
    (fetchEntropy downEnv sampleNodes "n1" 0).2.countP isCallContract
      ≤ sampleNode.entropy_agent.retryPolicy.maxAttempts.toNat := by
  have h := claim_C3_retry_bounds downEnv sampleNodes "n1" 0 sampleNode
    (by decide) (by decide)
  exact ⟨h.2.1 (fun k _ => rfl), h.1⟩

/-- Claim C8: a successful fetchEntropy writes exactly one cache entry, keyed
by the node id with the returned processed value and the configured TTL,
credits karma and reputation exactly once, never reads the cache, and with
post-process type none returns exactly the raw value of the contract call. -/
theorem claim_C8_fetch_side_effects (env : ChainEnv) (nodes : List (String × Node))
    (nodeId : String) (cIdx : Nat) (node : Node) (w : Option Nat)
    (hn : nodes.lookup nodeId = some node)
    (hw : (fetchEntropy env nodes nodeId cIdx).1 = .ok w) :
    (fetchEntropy env nodes nodeId cIdx).2.countP isCacheWrite = 1 ∧
    FxEffect.cacheWrite nodeId w node.entropy_agent.cacheTTL
      ∈ (fetchEntropy env nodes nodeId cIdx).2 ∧
    (fetchEntropy env nodes nodeId cIdx).2.countP isKarmaCredit = 1 ∧
    FxEffect.karmaCredit node.wallet_address node.karmaWage
      ∈ (fetchEntropy env nodes nodeId cIdx).2 ∧
    (fetchEntropy env nodes nodeId cIdx).2.countP isReputationCredit = 1 ∧
    (fetchEntropy env nodes nodeId cIdx).2.countP isCacheRead = 0 ∧
    (node.entropy_agent.postProcess.ptype = "none" →
      (retryLoop env.gw (node.entropy_agent.contracts.getD cIdx 0)
        node.entropy_agent.method node.entropy_agent.format
        node.entropy_agent.retryPolicy.backoffMs
        node.entropy_agent.retryPolicy.maxAttempts 0).1 = .ok w) := by
  obtain ⟨hz1, hz2, hz3, hz4, hz5⟩ := loopTrace_counts env.gw
    (node.entropy_agent.contracts.getD cIdx 0)
    node.entropy_agent.method node.entropy_agent.format
    node.entropy_agent.retryPolicy.backoffMs
    node.entropy_agent.retryPolicy.maxAttempts
  simp only [fetchEntropy, hn] at hw ⊢
  rcases hr : (retryLoop env.gw (node.entropy_agent.contracts.getD cIdx 0)
      node.entropy_agent.method node.entropy_agent.format
      node.entropy_agent.retryPolicy.backoffMs
      node.entropy_agent.retryPolicy.maxAttempts 0).1 with a | entropy
  · simp only [hr] at hw
    simp at hw
  · simp only [hr] at hw ⊢
    obtain ⟨hwv, hk1, hk2, hk3, hmc, hmk⟩ :=
      afterFetch_ok env node nodeId entropy _ w hw
    obtain ⟨hx1, hx2, hx3⟩ := afterFetch_countP_extra env node nodeId entropy _
    refine ⟨?_, ?_, ?_, ?_, ?_, ?_, ?_⟩
    · rw [hx2, hz1]
    · rw [hwv]
      exact hmc
    · rw [hk1, hz3]
    · exact hmk
    · rw [hk2, hz4]
    · rw [hx3, hz2]
    · intro hpt
      rw [hwv]
      simp [processedOf, hpt]

/-- Claim C9: with a non-positive maxAttempts the retry loop is skipped, so
fetchEntropy performs no contract call, does not fail with the entropy-fetch
error, and proceeds to post-process the undefined value, cache it, credit
karma and reputation once each, and return it as a success. -/
theorem claim_C9_zero_max_attempts (env : ChainEnv) (nodes : List (String × Node))
    (nodeId : String) (cIdx : Nat) (node : Node)
    (hn : nodes.lookup nodeId = some node)
    (hN : node.entropy_agent.retryPolicy.maxAttempts ≤ 0)
    (hf : env.hookFails = false) :
    (fetchEntropy env nodes nodeId cIdx).2.countP isCallContract = 0 ∧
    (∀ a : Nat, (fetchEntropy env nodes nodeId cIdx).1 ≠ .error (.entropyFetch a)) ∧
    (fetchEntropy env nodes nodeId cIdx).1 = .ok (processedOf env node none) ∧
    (fetchEntropy env nodes nodeId cIdx).2.countP isCacheWrite = 1 ∧
    (fetchEntropy env nodes nodeId cIdx).2.countP isKarmaCredit = 1 ∧
    (fetchEntropy env nodes nodeId cIdx).2.countP isReputationCredit = 1 ∧
    (node.entropy_agent.postProcess.ptype = "none" →
      (fetchEntropy env nodes nodeId cIdx).1 = .ok none) ∧
    (∀ e ∈ (fetchEntropy env nodes nodeId cIdx).2, isPostProcessRun e = true →
      e = FxEffect.postProcessRun node.entropy_agent.postProcess.ptype
        node.entropy_agent.postProcess.callback none) := by
  have hguard : ¬ (((0 : Nat) : Int) < node.entropy_agent.retryPolicy.maxAttempts) := by
    omega
  have hloop := retryLoop_guard_false env.gw
    (node.entropy_agent.contracts.getD cIdx 0)
    node.entropy_agent.method node.entropy_agent.format
    node.entropy_agent.retryPolicy.backoffMs
    node.entropy_agent.retryPolicy.maxAttempts 0 hguard
  have hfe : fetchEntropy env nodes nodeId cIdx
      = afterFetch env node nodeId none [] := by
    simp only [fetchEntropy, hn, hloop]
  have hok := afterFetch_ok_of_not_hookfail env node nodeId none [] hf
  obtain ⟨hx1, hx2, hx3⟩ := afterFetch_countP_extra env node nodeId none []
  obtain ⟨hwv, hk1, hk2, hk3, hmc, hmk⟩ :=
    afterFetch_ok env node nodeId none [] (processedOf env node none) hok
  rw [hfe]
  refine ⟨?_, ?_, hok, ?_, ?_, ?_, ?_, ?_⟩
  · rw [hx1]
    rfl
  · intro a h
    rw [hok] at h
    simp at h
  · rw [hx2]
    rfl
  · rw [hk1]
    rfl
  · rw [hk2]
    rfl
  · intro hpt
    rw [hok]
    simp [processedOf, hpt]
  · intro e he hrun
    rcases afterFetch_ppRun_mem env node nodeId none [] e he hrun with h | h
    · simp at h
    · exact h

/-- Witness for claim C9: a node with maxAttempts 0 and a succeeding adapter
yields a success with no contract call. -/
theorem claim_C9_witness :
    (fetchEntropy okEnv zeroRetryNodes "n0" 0).2.countP isCallContract = 0 ∧
    (fetchEntropy okEnv zeroRetryNodes "n0" 0).1
      = .ok (processedOf okEnv zeroRetryNode none) := by
  have h := claim_C9_zero_max_attempts okEnv zeroRetryNodes "n0" 0 zeroRetryNode
    (by decide) (by decide) rfl
  exact ⟨h.1, h.2.2.1⟩

/-- Counterexample to claim C1: with a gateway whose contract call succeeds on
the first attempt and a throwing onEntropyFetch hook, fetchEntropy does not
return the processed entropy — it fails with the propagated hook error. -/
theorem claim_C1_counterexample :
    hookFailEnv.gw 0 = some 42 ∧
    (fetchEntropy hookFailEnv sampleNodes "n1" 0).1 = .error .hookError := by
  constructor
  · rfl
  · simp [fetchEntropy, sampleNodes, sampleNode, sampleAgent, hookFailEnv,
      List.lookup, retryLoop, afterFetch, processedOf, ppTrace]

/-- Claim C1 as amended: when the contract call succeeds but the configured
onEntropyFetch hook dispatch throws, the failure propagates and fetchEntropy
fails with the hook error; the cache write made before the hook remains, but
no karma credit, no reputation credit and no audit event happen. -/
theorem claim_C1_hook_failure_fails_fetch (env : ChainEnv)
    (nodes : List (String × Node)) (nodeId : String) (cIdx : Nat) (node : Node)
    (hk : String) (entropy : Option Nat)
    (hn : nodes.lookup nodeId = some node)
    (hhk : node.transactionHooks.onEntropyFetch = some hk)
    (hf : env.hookFails = true)
    (hloop : (retryLoop env.gw (node.entropy_agent.contracts.getD cIdx 0)
        node.entropy_agent.method node.entropy_agent.format
        node.entropy_agent.retryPolicy.backoffMs
        node.entropy_agent.retryPolicy.maxAttempts 0).1 = .ok entropy) :
    (fetchEntropy env nodes nodeId cIdx).1 = .error .hookError ∧
    (fetchEntropy env nodes nodeId cIdx).2.countP isCacheWrite = 1 ∧
    (fetchEntropy env nodes nodeId cIdx).2.countP isKarmaCredit = 0 ∧
    (fetchEntropy env nodes nodeId cIdx).2.countP isReputationCredit = 0 ∧
    (fetchEntropy env nodes nodeId cIdx).2.countP isAudit = 0 ∧
    FxEffect.hookRun hk ∈ (fetchEntropy env nodes nodeId cIdx).2 := by
  obtain ⟨hz1, hz2, hz3, hz4, hz5⟩ := loopTrace_counts env.gw
    (node.entropy_agent.contracts.getD cIdx 0)
    node.entropy_agent.method node.entropy_agent.format
    node.entropy_agent.retryPolicy.backoffMs
    node.entropy_agent.retryPolicy.maxAttempts
  have hfe : fetchEntropy env nodes nodeId cIdx
      = afterFetch env node nodeId entropy
        (retryLoop env.gw (node.entropy_agent.contracts.getD cIdx 0)
          node.entropy_agent.method node.entropy_agent.format
          node.entropy_agent.retryPolicy.backoffMs
          node.entropy_agent.retryPolicy.maxAttempts 0).2 := by
    simp only [fetchEntropy, hn]
    rw [hloop]
  obtain ⟨he1, he2, he3, he4, he5⟩ :=
    afterFetch_hookfail env node nodeId entropy _ hk hhk hf
  obtain ⟨hx1, hx2, hx3⟩ := afterFetch_countP_extra env node nodeId entropy
    (retryLoop env.gw (node.entropy_agent.contracts.getD cIdx 0)
      node.entropy_agent.method node.entropy_agent.format
      node.entropy_agent.retryPolicy.backoffMs
      node.entropy_agent.retryPolicy.maxAttempts 0).2
  rw [hfe]
  exact ⟨he1, by rw [hx2, hz1], by rw [he2, hz3], by rw [he3, hz4],
    by rw [he4, hz5], he5⟩

/-- Witness for the amended claim C1 at concrete data: the hook runs, no karma
or reputation credit happens, and the call fails with the hook error. -/
theorem claim_C1_witness :
    (fetchEntropy hookFailEnv sampleNodes "n1" 0).1 = .error .hookError ∧
    (fetchEntropy hookFailEnv sampleNodes "n1" 0).2.countP isKarmaCredit = 0 ∧
    (fetchEntropy hookFailEnv sampleNodes "n1" 0).2.countP isReputationCredit = 0 ∧
    FxEffect.hookRun "hookA" ∈ (fetchEntropy hookFailEnv sampleNodes "n1" 0).2 := by
  have h := claim_C1_hook_failure_fails_fetch hookFailEnv sampleNodes "n1" 0
    sampleNode "hookA" (some 42) (by decide) rfl rfl
    (by simp [retryLoop, hookFailEnv, sampleNode, sampleAgent])
  exact ⟨h.1, h.2.2.1, h.2.2.2.1, h.2.2.2.2.2⟩

/-- Witness for claim C8 at concrete data: one cache write, one karma credit,
no cache read. -/
theorem claim_C8_witness :
    (fetchEntropy okEnv sampleNodes "n1" 0).2.countP isCacheWrite = 1 ∧
    (fetchEntropy okEnv sampleNodes "n1" 0).2.countP isKarmaCredit = 1 ∧
    (fetchEntropy okEnv sampleNodes "n1" 0).2.countP isCacheRead = 0 := by
  have h := claim_C8_fetch_side_effects okEnv sampleNodes "n1" 0 sampleNode
    (some 42) (by decide)
    (by simp [fetchEntropy, sampleNodes, sampleNode, sampleAgent, okEnv,
      List.lookup, retryLoop, afterFetch, processedOf, ppTrace])
  exact ⟨h.1, h.2.2.1, h.2.2.2.2.2.1⟩

end SoverinSchema
